import Mathlib

/-!
Verification of the Zattoo EPG grabber (src/zattoo_epg.py) against its
natural-language specification.

The relevant parts of the program are shallowly embedded below:

* text sanitization (_clean_text, lines 624-642) over lists of characters,
  with Python str.replace, the regex substitution for tags, and str.strip
  modelled explicitly;
* the XMLTV document builder's programme-emission filter and episode-number
  rendering (generate_xmltv, lines 445-622);
* the listing-window computation (download_epg_data, lines 219-237);
* the detail-batch slicing (enhance_epg_data, lines 358-366);
* the per-batch retry loop with backoff (lines 375-388);
* the outer enhancement loop with the connection-error counter and early
  abort (lines 361-425), with per-batch outcomes abstracted as inputs;
* the detail-merge matching step, including Python int() on the batch key
  (lines 390-403), in an error monad since int() can raise.

Machine integers are modelled as Int / Nat (Python integers are unbounded),
timestamps as Int seconds under a fixed local UTC offset, and Python dicts
as association lists.
-/

namespace ZattooEPG

/-! ## Text sanitization (_clean_text) -/

/-- Whitespace characters recognised by Python str.strip(). -/
def isPySpace (c : Char) : Bool :=
  c = ' ' || c = '\t' || c = '\n' || c = '\x0d' || c = '\x0b' || c = '\x0c'

/-- Python str.strip(): drop leading and trailing whitespace. -/
def pyStrip (l : List Char) : List Char :=
  ((l.dropWhile isPySpace).reverse.dropWhile isPySpace).reverse

/-- Python text.replace with ampersand replaced by its entity; replacements
are not rescanned, mirroring str.replace. -/
def escapeAmp : List Char → List Char
  | [] => []
  | c :: r =>
    if c = '&' then '&' :: 'a' :: 'm' :: 'p' :: ';' :: escapeAmp r
    else c :: escapeAmp r

/-- Python text.replace with the less-than sign replaced by its entity. -/
def escapeLt : List Char → List Char
  | [] => []
  | c :: r =>
    if c = '<' then '&' :: 'l' :: 't' :: ';' :: escapeLt r
    else c :: escapeLt r

/-- Python text.replace with the greater-than sign replaced by its entity. -/
def escapeGt : List Char → List Char
  | [] => []
  | c :: r =>
    if c = '>' then '&' :: 'g' :: 't' :: ';' :: escapeGt r
    else c :: escapeGt r

/-- Locate the first greater-than sign and return the suffix after it;
none when no such character exists. -/
def splitAtGt : List Char → Option (List Char)
  | [] => none
  | c :: r => if c = '>' then some r else splitAtGt r

/-- Fuelled core of the regex substitution re.sub applied by _clean_text:
each match of a tag pattern (a less-than sign, then characters other than a
greater-than sign, then a greater-than sign) is removed; an unmatched
less-than sign is kept.  The fuel is an upper bound on the list length and
never runs out at the call site in stripTags. -/
def stripGo : Nat → List Char → List Char
  | 0, l => l
  | _ + 1, [] => []
  | fuel + 1, c :: r =>
    if c = '<' then
      match splitAtGt r with
      | some rest => stripGo fuel rest
      | none => c :: stripGo fuel r
    else c :: stripGo fuel r

/-- Regex substitution removing tag-shaped substrings, as performed by the
re.sub call in _clean_text. -/
def stripTags (l : List Char) : List Char := stripGo l.length l

/-- Embedding of ZattooEPG._clean_text (lines 624-642): empty text is
returned as the empty string; otherwise the ampersand, less-than and
greater-than substitutions run in that order, then the tag regex
substitution, then strip. -/
def cleanText (s : String) : String :=
  if s = "" then ""
  else String.mk (pyStrip (stripTags (escapeGt (escapeLt (escapeAmp s.data)))))

theorem splitAtGt_length :
    ∀ l rest, splitAtGt l = some rest → rest.length < l.length := by
  intro l
  induction l with
  | nil => intro rest h; simp [splitAtGt] at h
  | cons c r ih =>
    intro rest h
    by_cases hc : c = '>'
    · simp [splitAtGt, hc] at h
      simp [← h, List.length_cons]
    · simp [splitAtGt, hc] at h
      exact Nat.lt_trans (ih rest h) (Nat.lt_succ_self _)

theorem escapeAmp_of_not_mem {l : List Char} (h : '&' ∉ l) :
    escapeAmp l = l := by
  induction l with
  | nil => rfl
  | cons c r ih =>
    simp only [List.mem_cons, not_or] at h
    have hc : ¬ c = '&' := fun hc => h.1 hc.symm
    simp [escapeAmp, hc, ih h.2]

theorem escapeLt_of_not_mem {l : List Char} (h : '<' ∉ l) :
    escapeLt l = l := by
  induction l with
  | nil => rfl
  | cons c r ih =>
    simp only [List.mem_cons, not_or] at h
    have hc : ¬ c = '<' := fun hc => h.1 hc.symm
    simp [escapeLt, hc, ih h.2]

theorem escapeGt_of_not_mem {l : List Char} (h : '>' ∉ l) :
    escapeGt l = l := by
  induction l with
  | nil => rfl
  | cons c r ih =>
    simp only [List.mem_cons, not_or] at h
    have hc : ¬ c = '>' := fun hc => h.1 hc.symm
    simp [escapeGt, hc, ih h.2]

theorem stripGo_of_not_mem {l : List Char} (h : '<' ∉ l) :
    ∀ fuel, stripGo fuel l = l := by
  induction l with
  | nil => intro fuel; cases fuel <;> rfl
  | cons c r ih =>
    intro fuel
    simp only [List.mem_cons, not_or] at h
    cases fuel with
    | zero => rfl
    | succ n =>
      have hc : ¬ c = '<' := fun hc => h.1 hc.symm
      simp [stripGo, hc, ih h.2]

theorem stripTags_of_not_mem {l : List Char} (h : '<' ∉ l) :
    stripTags l = l :=
  stripGo_of_not_mem h l.length

theorem not_lt_mem_escapeLt (l : List Char) : '<' ∉ escapeLt l := by
  induction l with
  | nil => simp [escapeLt]
  | cons c r ih =>
    by_cases hc : c = '<'
    · intro h
      simp [escapeLt, hc] at h
      exact ih h
    · intro h
      simp [escapeLt, hc] at h
      rcases h with h | h
      · exact hc h.symm
      · exact ih h

theorem not_lt_mem_escapeGt {l : List Char} (h : '<' ∉ l) : '<' ∉ escapeGt l := by
  induction l with
  | nil => simp [escapeGt]
  | cons c r ih =>
    simp only [List.mem_cons, not_or] at h
    by_cases hc : c = '>'
    · intro hm
      simp [escapeGt, hc] at hm
      exact ih h.2 hm
    · intro hm
      simp [escapeGt, hc] at hm
      rcases hm with hm | hm
      · exact h.1 hm
      · exact ih h.2 hm

/-- Claim C2 (code bug): the spec and the function's own docstring say HTML
markup tags are stripped, but _clean_text escapes the angle brackets before
running the tag regex, so the regex can never match and the tag text always
survives in escaped form.  First conjunct: the concrete failing input.
Second conjunct: the tag-removal pass is the identity on every input that
reaches it, because after escaping no less-than sign remains. -/
theorem c2_tag_text_survives :
    cleanText "<b>Hi</b>" = "&lt;b&gt;Hi&lt;/b&gt;" ∧
    ∀ t : List Char,
      stripTags (escapeGt (escapeLt (escapeAmp t))) =
        escapeGt (escapeLt (escapeAmp t)) := by
  constructor
  · decide
  · intro t
    exact stripTags_of_not_mem (not_lt_mem_escapeGt (not_lt_mem_escapeLt _))

/-- Claim C9 (counterexample): the input " a " contains no markup and none
of the three XML-significant characters, yet sanitization changes it, because
_clean_text ends with str.strip(). -/
theorem c9_counterexample :
    (∀ c ∈ " a ".data, c ≠ '&' ∧ c ≠ '<' ∧ c ≠ '>') ∧
    cleanText " a " = "a" ∧ cleanText " a " ≠ " a " := by
  decide

/-- Claim C9 (amended): sanitization is the identity on strings containing
no raw ampersand, less-than or greater-than characters (hence no markup)
and carrying no leading or trailing whitespace. -/
theorem c9_amended (s : String) (hamp : '&' ∉ s.data) (hlt : '<' ∉ s.data)
    (hgt : '>' ∉ s.data) (hstrip : pyStrip s.data = s.data) :
    cleanText s = s := by
  by_cases hs : s = ""
  · simp [cleanText, hs]
  · simp only [cleanText, if_neg hs]
    rw [escapeAmp_of_not_mem hamp, escapeLt_of_not_mem hlt,
      escapeGt_of_not_mem hgt, stripTags_of_not_mem hlt, hstrip]

/-- Witness for c9_amended at the concrete input "abc". -/
theorem c9_amended_witness : cleanText "abc" = "abc" :=
  c9_amended "abc" (by decide) (by decide) (by decide) (by decide)

/-! ## Guide document builder (generate_xmltv) -/

/-- Python truthiness of an optional string: None and the empty string are
falsy. -/
def truthyStr : Option String → Bool
  | none => false
  | some s => s ≠ ""

/-- Python truthiness of an optional integer: None and 0 are falsy. -/
def truthyInt : Option Int → Bool
  | none => false
  | some n => n ≠ 0

/-- Fields of one entry of self.epg_data that generate_xmltv reads to
decide whether a programme element is emitted: channel id (key cid),
start and end timestamps (keys s and e) and title (key t); a missing key
is None. -/
structure ListingRecord where
  cid : Option String
  s : Option Int
  e : Option Int
  t : Option String
deriving DecidableEq

/-- Test performed by generate_xmltv, line 493: all([cid, start_time,
end_time, title]) under Python truthiness. -/
def requiredPresent (p : ListingRecord) : Bool :=
  truthyStr p.cid && truthyInt p.s && truthyInt p.e && truthyStr p.t

/-- Shape of the generated document that the channel-reference claims are
about: the ids of the emitted channel elements and the listing records for
which a programme element was emitted. -/
structure XmltvDoc where
  channelIds : List String
  programmes : List ListingRecord
deriving DecidableEq

/-- Embedding of the element-emission logic of generate_xmltv (lines
467-507): one channel element per entry of self.channels, and one programme
element per epg record whose four required fields are all truthy.  The
programme loop consults only the record's own fields; self.channels is
never checked there. -/
def generate_xmltv (channels : List (String × String))
    (epg : List ListingRecord) : XmltvDoc :=
  { channelIds := channels.map (fun c => c.1)
  , programmes := epg.filter requiredPresent }

/-- String used for one component of the episode-num text, line 580-581:
str(int(v) - 1) if v else the empty string. -/
def intComp (v : Option Int) : String :=
  if truthyInt v then toString (v.getD 0 - 1) else ""

/-- Embedding of the episode-num rendering of generate_xmltv (lines
573-582): when season or episode is truthy, the element text is the
season component, a dot, the episode component, and a final dot. -/
def episodeNumText (sNo eNo : Option Int) : Option String :=
  if truthyInt sNo || truthyInt eNo then
    some (intComp sNo ++ "." ++ intComp eNo ++ ".")
  else none

/-- Claim C1 (counterexample): a record whose channel id 999 is not in the
gathered channel set still yields a programme element; it is not dropped. -/
theorem c1_counterexample :
    (generate_xmltv [("101", "ChannelA")]
        [⟨some "999", some 100, some 200, some "News"⟩]).programmes =
      [⟨some "999", some 100, some 200, some "News"⟩] ∧
    "999" ∉ (generate_xmltv [("101", "ChannelA")]
        [⟨some "999", some 100, some 200, some "News"⟩]).channelIds := by
  decide

/-- Claim C1 (amended): a record appears as a programme element exactly when
its four required fields (channel id, start, end, title) are all truthy;
membership of the channel id in the gathered channel set is never consulted,
so records referencing unknown channels are kept, not dropped. -/
theorem c1_amended (channels : List (String × String))
    (epg : List ListingRecord) (p : ListingRecord) :
    p ∈ (generate_xmltv channels epg).programmes ↔
      p ∈ epg ∧ requiredPresent p = true := by
  simp [generate_xmltv, List.mem_filter]

/-- Claim C5 (counterexample): with season 2 and episode absent the
rendered episode-num text is "1.." (the dot after the empty episode
component is still printed), not "1." as the spec scenario states. -/
theorem c5_counterexample :
    episodeNumText (some 2) none = some "1.." ∧
    episodeNumText (some 2) none ≠ some "1." := by
  decide

/-- Claim C5 (amended): episode numbering is zero-based season.episode.
computed from one-based values, an absent component rendered as the empty
string in its position; both separator dots are always printed, so season 2
with episode absent renders as "1..". -/
theorem c5_amended (s e : Int) (hs : 1 ≤ s) (he : 1 ≤ e) :
    episodeNumText (some s) (some e) =
        some (toString (s - 1) ++ "." ++ toString (e - 1) ++ ".") ∧
    episodeNumText (some s) none = some (toString (s - 1) ++ "..") ∧
    episodeNumText none (some e) = some ("." ++ toString (e - 1) ++ ".") := by
  have hs0 : (s : Int) ≠ 0 := by omega
  have he0 : (e : Int) ≠ 0 := by omega
  refine ⟨?_, ?_, ?_⟩
  · simp [episodeNumText, intComp, truthyInt, hs0, he0]
  · simp only [episodeNumText, intComp, truthyInt]
    simp [hs0]
    rw [show (".." : String) = "." ++ "." from rfl, ← String.append_assoc]
  · simp only [episodeNumText, intComp, truthyInt]
    simp [he0]

/-- Witness for c5_amended at season 2, episode 3. -/
theorem c5_amended_witness :
    episodeNumText (some 2) (some 3) =
      some (toString ((2 : Int) - 1) ++ "." ++ toString ((3 : Int) - 1) ++ ".") :=
  (c5_amended 2 3 (by decide) (by decide)).1

/-! ## Listing windows (download_epg_data) -/

/-- Base timestamp of download_epg_data, line 221:
datetime.now().replace(hour=6, minute=0, second=0, microsecond=0), i.e. six
o'clock of the current local day.  The argument is the current time as
seconds since a local-midnight-aligned epoch, so the start of the current
local day is now - now % 86400. -/
def baseTimestamp (now : Int) : Int := now - now % 86400 + 6 * 3600

/-- Embedding of the window enumeration of download_epg_data (lines
227-237): for each day and each of its four parts, a start timestamp at
base + day days + part * 6 hours and an end timestamp six hours later.
Conversion of local datetimes to integer timestamps is modelled as linear
(a fixed local UTC offset). -/
def windowList (base : Int) (days : Nat) : List (Int × Int) :=
  (List.range days).flatMap (fun day : Nat =>
    (List.range 4).map (fun part : Nat =>
      (base + (day : Int) * 86400 + (part : Int) * 21600,
       base + (day : Int) * 86400 + (part : Int) * 21600 + 21600)))

theorem windowList_eq_map (base : Int) (d : Nat) :
    windowList base d = (List.range (4 * d)).map
      (fun i : Nat =>
        (base + 21600 * (i : Int), base + 21600 * ((i : Int) + 1))) := by
  induction d with
  | zero => rfl
  | succ n ih =>
    have h4 : 4 * (n + 1) = 4 * n + 4 := by ring
    rw [windowList, List.range_succ, List.flatMap_append, h4, List.range_add,
      List.map_append, List.map_map]
    rw [windowList] at ih
    rw [ih]
    congr 1
    · simp only [List.flatMap_cons, List.flatMap_nil, List.append_nil]
      have hr4 : List.range 4 = [0, 1, 2, 3] := by decide
      rw [hr4]
      simp only [List.map_cons, List.map_nil, Function.comp]
      push_cast
      refine List.cons_eq_cons.mpr ⟨?_, ?_⟩
      · simp only [Prod.mk.injEq]
        constructor <;> ring
      · refine List.cons_eq_cons.mpr ⟨?_, ?_⟩
        · simp only [Prod.mk.injEq]
          constructor <;> ring
        · refine List.cons_eq_cons.mpr ⟨?_, ?_⟩
          · simp only [Prod.mk.injEq]
            constructor <;> ring
          · refine List.cons_eq_cons.mpr ⟨?_, rfl⟩
            simp only [Prod.mk.injEq]
            constructor <;> ring

/-- Claim C6 (counterexample): taking local midnight as timestamp 0, the
base timestamp is 21600 (six o'clock), not the local day start, and the
first window therefore begins at 21600 rather than 0. -/
theorem c6_counterexample :
    baseTimestamp 0 = 21600 ∧ baseTimestamp 0 ≠ 0 ∧
    (windowList (baseTimestamp 0) 1).head? = some (21600, 43200) := by
  decide

/-- Claim C6 (amended): for every day count d the fetcher issues exactly
4 * d windows; window i is the half-open interval from base + 21600 * i to
base + 21600 * (i + 1), so the windows are contiguous, non-overlapping,
each spans exactly six hours, and their union spans exactly d days from the
base — where the base is six o'clock of the current local day, not the
local day start. -/
theorem c6_amended (base : Int) (d i : Nat) (h : i < 4 * d) :
    (windowList base d).length = 4 * d ∧
    (windowList base d)[i]? =
      some (base + 21600 * (i : Int), base + 21600 * ((i : Int) + 1)) ∧
    ∀ w ∈ windowList base d, w.2 - w.1 = 21600 := by
  refine ⟨?_, ?_, ?_⟩
  · rw [windowList_eq_map]
    simp
  · rw [windowList_eq_map]
    rw [List.getElem?_map, List.getElem?_range h]
    rfl
  · intro w hw
    rw [windowList_eq_map] at hw
    rcases List.mem_map.mp hw with ⟨j, _, rfl⟩
    ring_nf

/-- Witness for c6_amended at base 0, one day, first window. -/
theorem c6_amended_witness :
    (windowList 0 1).length = 4 * 1 ∧
    (windowList 0 1)[(0 : Nat)]? =
      some ((0 : Int) + 21600 * ((0 : Nat) : Int),
        (0 : Int) + 21600 * (((0 : Nat) : Int) + 1)) ∧
    ∀ w ∈ windowList 0 1, w.2 - w.1 = 21600 :=
  c6_amended 0 1 0 (by decide)

/-! ## Detail batches (enhance_epg_data, slicing) -/

/-- Batch size used by enhance_epg_data, line 358. -/
def batch_size : Nat := 20

/-- Embedding of the batch slicing of enhance_epg_data (lines 363-366):
the loop for i in range(0, len(program_ids), batch_size) takes the slices
program_ids[i:i + batch_size]; iteration j uses i = batch_size * j, and the
number of iterations is the ceiling of len / batch_size, the same value the
code computes as total_batches on line 363. -/
def makeBatches (ids : List String) : List (List String) :=
  (List.range ((ids.length + batch_size - 1) / batch_size)).map
    (fun j => (ids.drop (batch_size * j)).take batch_size)

theorem flatten_chunks (m : Nat) :
    ∀ l : List String, l.length ≤ 20 * m →
      ((List.range m).map (fun j => (l.drop (20 * j)).take 20)).flatten = l := by
  induction m with
  | zero =>
    intro l h
    have hl : l = [] := List.length_eq_zero.mp (by omega)
    simp [hl]
  | succ n ih =>
    intro l h
    rw [List.range_succ_eq_map, List.map_cons, List.map_map]
    have hfun : ((fun j => (l.drop (20 * j)).take 20) ∘ Nat.succ)
        = fun j => (((l.drop 20).drop (20 * j)).take 20) := by
      funext j
      simp only [Function.comp_apply, List.drop_drop]
      congr 2
      omega
    rw [hfun, List.flatten_cons]
    have hlen : (l.drop 20).length ≤ 20 * n := by
      simp only [List.length_drop]
      omega
    rw [ih (l.drop 20) hlen]
    simp only [Nat.mul_zero, List.drop_zero]
    exact List.take_append_drop 20 l

/-- Claim C8 (confirmed): for N identifiers and batch size 20 the enricher
issues ceil(N/20) batch requests, and the concatenation of the batches is
exactly the input identifier sequence, so every identifier lands in exactly
one batch and no identifier is repeated across batches. -/
theorem c8_batches (ids : List String) :
    (makeBatches ids).length = (ids.length + batch_size - 1) / batch_size ∧
    (makeBatches ids).flatten = ids := by
  constructor
  · simp [makeBatches]
  · have h : ids.length ≤ 20 * ((ids.length + 20 - 1) / 20) := by omega
    simpa [makeBatches, batch_size] using flatten_chunks _ ids h

/-! ## Per-batch retry loop (enhance_epg_data, lines 375-388) -/

/-- Details dictionary returned by get_program_details_batch: program id to
field bag; the empty dictionary signals a failed or unusable response. -/
abbrev Details := List (String × List (String × String))

/-- Retry bound of enhance_epg_data, line 377. -/
def max_retries : Nat := 3

/-- Observable outcome of one batch's retry loop: the details obtained,
how many requests were attempted, the sleep durations performed between
attempts, and whether connection_errors was incremented. -/
structure RetryResult where
  details : Details
  attempts : Nat
  sleeps : List Nat
  connErr : Bool
deriving DecidableEq

/-- Embedding of the while loop of enhance_epg_data (lines 379-388).  The
state is retry_count (second argument); fetch gives the response of the
call made at each retry_count value.  On a failed call retry_count is
incremented, then either the loop sleeps 2 ^ retry_count seconds and runs
again (when retry_count is still below max_retries) or connection_errors is
incremented and the loop exits.  The fuel (first argument) starts at
max_retries and never runs out, since retry_count grows by one per
iteration. -/
def retryGo (fetch : Nat → Details) : Nat → Nat → RetryResult
  | 0, _ => ⟨[], 0, [], false⟩
  | fuel + 1, rc =>
    if rc < max_retries then
      match fetch rc with
      | [] =>
        if rc + 1 < max_retries then
          let r := retryGo fetch fuel (rc + 1)
          ⟨r.details, r.attempts + 1, 2 ^ (rc + 1) :: r.sleeps, r.connErr⟩
        else ⟨[], 1, [], true⟩
      | d :: ds => ⟨d :: ds, 1, [], false⟩
    else ⟨[], 0, [], false⟩

/-- Retry loop for one batch, started with retry_count = 0 and an empty
batch_details dictionary. -/
def retryLoop (fetch : Nat → Details) : RetryResult :=
  retryGo fetch max_retries 0

/-- Claim C3 (counterexample): when every request fails, the loop makes 3
attempts but sleeps only 2s and 4s between them — the 8s sleep claimed by
the spec (and by the comment on line 384) never happens, because after the
third failed attempt the loop exits without sleeping. -/
theorem c3_counterexample :
    (retryLoop (fun _ => [])).attempts = 3 ∧
    (retryLoop (fun _ => [])).sleeps = [2, 4] ∧
    (retryLoop (fun _ => [])).sleeps ≠ [2, 4, 8] ∧
    (retryLoop (fun _ => [])).connErr = true := by
  decide

/-- Claim C3 (amended): for every batch the loop makes at most 3 attempts;
the sleeps between successive attempts are 2s then 4s (a prefix of [2, 4]
determined by the number of attempts, with no sleep after the final failed
attempt); and connection_errors is incremented exactly when all 3 attempts
returned no usable details, which is not a fatal failure. -/
theorem c3_amended (fetch : Nat → Details) :
    (retryLoop fetch).attempts ≤ max_retries ∧
    (retryLoop fetch).sleeps =
      List.take ((retryLoop fetch).attempts - 1) [2, 4] ∧
    ((retryLoop fetch).connErr = true ↔
      (retryLoop fetch).attempts = 3 ∧ (retryLoop fetch).details = []) := by
  rcases h0 : fetch 0 with _ | ⟨d0, l0⟩
  · rcases h1 : fetch 1 with _ | ⟨d1, l1⟩
    · rcases h2 : fetch 2 with _ | ⟨d2, l2⟩
      · simp [retryLoop, retryGo, max_retries, h0, h1, h2]
      · simp [retryLoop, retryGo, max_retries, h0, h1, h2]
    · simp [retryLoop, retryGo, max_retries, h0, h1]
  · simp [retryLoop, retryGo, max_retries, h0]

/-! ## Outer enhancement loop (enhance_epg_data, lines 361-425) -/

/-- Observable outcome of the outer batch loop: how many batches were
processed before the loop ended, and the final connection_errors and
enhanced_count counters. -/
structure EnhanceOutcome where
  processed : Nat
  connErrors : Nat
  enhanced : Nat
deriving DecidableEq

/-- Embedding of the outer loop of enhance_epg_data with each batch
abstracted to its outcome: whether its retries were fully exhausted (so
connection_errors is incremented) and how many records it enhanced.  After
each batch the loop checks connection_errors > 5 and breaks early when the
check fires (line 423); the counter is never reset. -/
def enhanceLoop : List (Bool × Nat) → Nat → Nat → EnhanceOutcome
  | [], ce, enh => ⟨0, ce, enh⟩
  | (ex, k) :: rest, ce, enh =>
    let ce2 := if ex then ce + 1 else ce
    if 5 < ce2 then ⟨1, ce2, enh + k⟩
    else
      let r := enhanceLoop rest ce2 (enh + k)
      ⟨r.processed + 1, r.connErrors, r.enhanced⟩

/-- Claim C4 (counterexample): connection_errors is cumulative, not a count
of consecutive exhausted batches.  With five exhausted batches, then a
successful one, then one more exhausted batch, the loop aborts after the
seventh batch (processing 7 of the 9 supplied batches) even though at that
point only one consecutive exhausted batch has occurred; a reset-on-success
counter as claimed would have processed all 9. -/
theorem c4_counterexample :
    enhanceLoop [(true, 0), (true, 0), (true, 0), (true, 0), (true, 0),
        (false, 3), (true, 0), (false, 2), (false, 1)] 0 0 = ⟨7, 6, 3⟩ ∧
    ([(true, 0), (true, 0), (true, 0), (true, 0), (true, 0),
        (false, 3), (true, 0), (false, 2), (false, 1)] :
      List (Bool × Nat)).length = 9 := by
  decide

/-- Claim C4 (amended): the counter of fully-exhausted-retry batches is
cumulative over the whole run (never reset when a batch succeeds); when it
exceeds the threshold 5 the loop aborts early.  First conjunct: in the
scenario of 6 consecutive exhausted batches, enrichment halts right after
the sixth batch, whatever batches follow.  Second conjunct: the counters
never decrease, so enhancements made before the abort are kept. -/
theorem c4_amended :
    (∀ rest : List (Bool × Nat),
      enhanceLoop ((true, 0) :: (true, 0) :: (true, 0) :: (true, 0) ::
        (true, 0) :: (true, 0) :: rest) 0 0 = ⟨6, 6, 0⟩) ∧
    (∀ (l : List (Bool × Nat)) (ce enh : Nat),
      ce ≤ (enhanceLoop l ce enh).connErrors ∧
      enh ≤ (enhanceLoop l ce enh).enhanced) := by
  constructor
  · intro rest
    simp [enhanceLoop]
  · intro l
    induction l with
    | nil =>
      intro ce enh
      simp [enhanceLoop]
    | cons b rest ih =>
      intro ce enh
      rcases b with ⟨ex, k⟩
      cases ex
      · obtain ⟨h1, h2⟩ := ih ce (enh + k)
        by_cases h5 : 5 < ce
        · simp [enhanceLoop, h5]
        · simp [enhanceLoop, h5]
          all_goals omega
      · obtain ⟨h1, h2⟩ := ih (ce + 1) (enh + k)
        by_cases h5 : 5 < ce + 1
        · simp [enhanceLoop, h5]
        · simp [enhanceLoop, h5]
          all_goals omega

/-! ## Detail merge (enhance_epg_data, lines 390-403) -/

/-- Value stored under the key id of a program dictionary: it may arrive
from the upstream source as an integer or as a string. -/
inductive PyId where
  | int : Int → PyId
  | str : String → PyId
deriving DecidableEq

/-- Python str() of program.get('id'): integers print in decimal, strings
print as themselves, a missing key (None) prints as "None". -/
def pyStr : Option PyId → String
  | none => "None"
  | some (.int n) => toString n
  | some (.str s) => s

/-- Accumulating scan of the digit run accepted by Python int(): ASCII
digits, with a single underscore allowed only between two digits. -/
def digitsGo : Nat → List Char → Option Nat
  | acc, [] => some acc
  | acc, [c] => if c.isDigit then some (acc * 10 + (c.toNat - 48)) else none
  | acc, c :: d :: r =>
    if c.isDigit then digitsGo (acc * 10 + (c.toNat - 48)) (d :: r)
    else if c = '_' then
      (if d.isDigit then digitsGo (acc * 10 + (d.toNat - 48)) r else none)
    else none

/-- Digit run of Python int(): at least one digit, first character a
digit. -/
def pyDigits? : List Char → Option Nat
  | [] => none
  | c :: r => if c.isDigit then digitsGo (c.toNat - 48) r else none

/-- Python int() applied to a string: surrounding whitespace is ignored,
an optional sign precedes the digits; none models the ValueError raised on
a non-numeric string. -/
def pyInt? (s : String) : Option Int :=
  match pyStrip s.data with
  | '+' :: r => (pyDigits? r).map (fun n => (n : Int))
  | '-' :: r => (pyDigits? r).map (fun n => -(n : Int))
  | l => (pyDigits? l).map (fun n => (n : Int))

/-- Matching test of enhance_epg_data, line 399:
str(program_db_id) == program_id or program_db_id == int(program_id).
The second disjunct is evaluated only when the first is false; there int()
may raise ValueError, modelled as the error case.  A Python == between the
parsed integer and a stored string or None is False without error. -/
def idMatches (recId : Option PyId) (key : String) : Except Unit Bool :=
  if pyStr recId = key then .ok true
  else
    match pyInt? key with
    | none => .error ()
    | some m =>
      match recId with
      | some (.int n) => .ok (n == m)
      | _ => .ok false

/-- Record of self.epg_data as the merge step sees it: the stored program
id (possibly absent) and the dictionary of remaining fields. -/
structure EpgRecord where
  id : Option PyId
  fields : List (String × String)
deriving DecidableEq

/-- Python dict.update(details) on a record: values of keys already present
are replaced in place, new keys are appended in order. -/
def dictUpdate (base upd : List (String × String)) : List (String × String) :=
  base.map (fun kv =>
    match upd.find? (fun kv2 => kv2.1 == kv.1) with
    | some kv2 => (kv.1, kv2.2)
    | none => kv) ++
  upd.filter (fun kv => ! base.any (fun kv2 => kv2.1 == kv.1))

/-- Inner loop of enhance_epg_data (lines 396-403): scan self.epg_data in
order, update the first record matching the batch key with the details and
stop there; an exception inside the comparison propagates. -/
def updateFirstMatch (key : String) (details : List (String × String)) :
    List EpgRecord → Except Unit (List EpgRecord)
  | [] => .ok []
  | r :: rest =>
    match idMatches r.id key with
    | .error e => .error e
    | .ok true => .ok ({ id := r.id, fields := dictUpdate r.fields details } :: rest)
    | .ok false =>
      match updateFirstMatch key details rest with
      | .error e => .error e
      | .ok rest2 => .ok (r :: rest2)

/-- Outer merge loop of enhance_epg_data (lines 390-403): for each id of
the batch that is a key of the returned details dictionary, locate and
update the matching record; ids absent from the dictionary are skipped
(counted as failed, not fatal). -/
def mergeBatch (epg : List EpgRecord) (batch : List String)
    (details : Details) : Except Unit (List EpgRecord) :=
  match batch with
  | [] => .ok epg
  | pid :: rest =>
    match details.find? (fun kv => kv.1 == pid) with
    | some kv =>
      match updateFirstMatch pid kv.2 epg with
      | .error e => .error e
      | .ok epg2 => mergeBatch epg2 rest details
    | none => mergeBatch epg rest details

theorem updateFirstMatch_append_of_no_match (key : String)
    (details : List (String × String)) (pre l : List EpgRecord)
    (hpre : ∀ r ∈ pre, idMatches r.id key = .ok false) :
    updateFirstMatch key details (pre ++ l) =
      (updateFirstMatch key details l).map (fun l2 => pre ++ l2) := by
  induction pre with
  | nil =>
    simp only [List.nil_append]
    cases updateFirstMatch key details l <;> rfl
  | cons r pre2 ih =>
    have hr : idMatches r.id key = .ok false := hpre r (List.mem_cons_self r pre2)
    have hpre2 : ∀ x ∈ pre2, idMatches x.id key = .ok false :=
      fun x hx => hpre x (List.mem_cons_of_mem r hx)
    have hpre3 := ih hpre2
    simp only [List.cons_append, updateFirstMatch, hr, List.append_eq]
    rw [hpre3]
    cases updateFirstMatch key details l
    · simp [Except.map]
    · simp [Except.map]

/-- Claim C7 (confirmed): identifier matching in the merge is
format-tolerant.  A record storing its id as the integer n is matched by a
batch result keyed by the decimal string of n, and a record storing its id
as a string is matched by a batch result under that same string key (the
form produced by str() from a numerically-expressed id); in both cases the
located record — the first match after any non-matching records — has the
detail fields overlaid onto its field dictionary. -/
theorem c7_format_tolerant (n : Int) (s : String) (f d : List (String × String))
    (pre rest : List EpgRecord)
    (hpreN : ∀ r ∈ pre, idMatches r.id (toString n) = .ok false)
    (hpreS : ∀ r ∈ pre, idMatches r.id s = .ok false) :
    mergeBatch (pre ++ ⟨some (.int n), f⟩ :: rest) [toString n]
        [(toString n, d)] =
      .ok (pre ++ ⟨some (.int n), dictUpdate f d⟩ :: rest) ∧
    mergeBatch (pre ++ ⟨some (.str s), f⟩ :: rest) [s] [(s, d)] =
      .ok (pre ++ ⟨some (.str s), dictUpdate f d⟩ :: rest) := by
  constructor
  · have hid : idMatches (some (.int n)) (toString n) = .ok true := by
      simp [idMatches, pyStr]
    have hfind : List.find? (fun kv => kv.1 == toString n) [(toString n, d)]
        = some (toString n, d) := by simp
    simp only [mergeBatch, hfind]
    rw [updateFirstMatch_append_of_no_match _ _ _ _ hpreN]
    simp [updateFirstMatch, hid, mergeBatch, Except.map]
  · have hid : idMatches (some (.str s)) s = .ok true := by
      simp [idMatches, pyStr]
    have hfind : List.find? (fun kv => kv.1 == s) [(s, d)]
        = some (s, d) := by simp
    simp only [mergeBatch, hfind]
    rw [updateFirstMatch_append_of_no_match _ _ _ _ hpreS]
    simp [updateFirstMatch, hid, mergeBatch, Except.map]

/-- Witness for c7_format_tolerant: integer-stored id 7 matched by the
string key "7", and string-stored id "7" matched by the key "7". -/
theorem c7_format_tolerant_witness :
    mergeBatch [⟨some (.int 7), [("t", "old")]⟩] [toString (7 : Int)]
        [(toString (7 : Int), [("d", "v")])] =
      .ok [⟨some (.int 7), dictUpdate [("t", "old")] [("d", "v")]⟩] ∧
    mergeBatch [⟨some (.str "7"), [("t", "old")]⟩] ["7"] [("7", [("d", "v")])] =
      .ok [⟨some (.str "7"), dictUpdate [("t", "old")] [("d", "v")]⟩] :=
  c7_format_tolerant 7 "7" [("t", "old")] [("d", "v")] [] []
    (by simp) (by simp)

theorem idMatches_isOk_of_numeric {key : String} (hk : (pyInt? key).isSome)
    (recId : Option PyId) : ∃ b, idMatches recId key = .ok b := by
  rcases Option.isSome_iff_exists.mp hk with ⟨m, hm⟩
  by_cases he : pyStr recId = key
  · exact ⟨true, by simp [idMatches, he]⟩
  · rcases recId with _ | pid
    · exact ⟨false, by simp [idMatches, he, hm]⟩
    · rcases pid with n | s
      · exact ⟨n == m, by simp [idMatches, he, hm]⟩
      · exact ⟨false, by simp [idMatches, he, hm]⟩

theorem updateFirstMatch_isOk_of_numeric {key : String}
    (hk : (pyInt? key).isSome) (details : List (String × String)) :
    ∀ l : List EpgRecord, ∃ l2, updateFirstMatch key details l = .ok l2 := by
  intro l
  induction l with
  | nil => exact ⟨[], rfl⟩
  | cons r rest ih =>
    rcases idMatches_isOk_of_numeric hk r.id with ⟨b, hb⟩
    rcases ih with ⟨l2, hl2⟩
    cases b
    · exact ⟨r :: l2, by simp [updateFirstMatch, hb, hl2]⟩
    · exact ⟨{ id := r.id, fields := dictUpdate r.fields details } :: rest,
        by simp [updateFirstMatch, hb]⟩

/-- Claim C10 (confirmed): when a batched identifier is a non-numeric
string and the first scanned record's stored id does not string-equal it,
the fallback comparison calls int() on the identifier and raises, aborting
the merge; and the merge is total whenever every batched identifier parses
as an integer. -/
theorem c10_nonnumeric_key (pid : Option PyId) (f d : List (String × String))
    (k : String) (hnum : pyInt? k = none) (hne : pyStr pid ≠ k) :
    mergeBatch [⟨pid, f⟩] [k] [(k, d)] = .error () ∧
    ∀ (epg : List EpgRecord) (batch : List String) (details : Details),
      (∀ key ∈ batch, (pyInt? key).isSome) →
      ∃ out, mergeBatch epg batch details = .ok out := by
  constructor
  · have hid : idMatches pid k = .error () := by
      simp [idMatches, hne, hnum]
    have hfind : List.find? (fun kv => kv.1 == k) [(k, d)] = some (k, d) := by
      simp
    simp only [mergeBatch, hfind]
    simp [updateFirstMatch, hid]
  · intro epg0 batch details hkeys
    induction batch generalizing epg0 with
    | nil =>
      exact ⟨epg0, rfl⟩
    | cons key rest ih =>
      have hk : (pyInt? key).isSome := hkeys key (List.mem_cons_self key rest)
      have hrest : ∀ x ∈ rest, (pyInt? x).isSome :=
        fun x hx => hkeys x (List.mem_cons_of_mem key hx)
      rcases hfind : details.find? (fun kv => kv.1 == key) with _ | kv
      · rcases ih epg0 hrest with ⟨out, hout⟩
        exact ⟨out, by simp [mergeBatch, hfind, hout]⟩
      · rcases updateFirstMatch_isOk_of_numeric hk kv.2 epg0 with ⟨epg2, h2⟩
        rcases ih epg2 hrest with ⟨out, hout⟩
        exact ⟨out, by simp [mergeBatch, hfind, h2, hout]⟩

/-- Witness for c10_nonnumeric_key at the non-numeric key "abc" against a
record whose stored id is the string "x". -/
theorem c10_nonnumeric_key_witness :
    mergeBatch [⟨some (.str "x"), []⟩] ["abc"] [("abc", [("d", "v")])] =
      .error () :=
  (c10_nonnumeric_key (some (.str "x")) [] [("d", "v")] "abc"
    (by decide) (by decide)).1

end ZattooEPG
